import Mathlib

set_option autoImplicit false

/-!
Verification development for the extended-query statement binder in
src/rust/cubesql/cubesql/src/sql/postgres/portal.rs.

The Rust code walks a parsed SQL statement tree (sqlparser AST) with a
`Visitor` trait whose default methods recurse into the supported node
kinds, and a `StatementBinder` that overrides `visit_value` to replace
each placeholder value node, in traversal order, with the literal form
of the next value from its ordered value list.

Shallow embedding conventions:
- the mutated-in-place tree becomes explicit state passing: each visit
  function takes the node and the binder and returns the rebuilt node
  together with the updated binder;
- the `self.values.get(self.position).expect("unexpected")` call panics
  when the cursor is past the end of the value list; the panic is
  modelled as `Option`: `none` is the abort, `some` the normal return;
- `i64` is modelled as `Int` and `u64` as `Nat` (the code only compares
  with zero and renders the decimal string; no arithmetic is performed,
  so no wrap-around can occur);
- the AST types carry the constructors the Rust `match` arms name, plus
  one representative constructor per wildcard `_` arm, so every no-op
  branch of the traversal is present in the model.
-/

/-- Subset of sqlparser `ast::Value` used by portal.rs: the placeholder
marker, the three literal constructors the binder produces, and `null`
as a representative of the untouched remaining variants. -/
inductive Value where
  | singleQuotedString (s : String)
  | number (digits : String) (negative : Bool)
  | boolean (b : Bool)
  | null
  | placeholder (s : String)
deriving DecidableEq

/-- sqlparser `ast::Ident`: the visitor never descends into it, so only
the name field is modelled. -/
structure Ident where
  value : String
deriving DecidableEq

/-- Subset of sqlparser `ast::Expr` matched by `Visitor::visit_expr`:
`Value`, `Identifier`, `Nested`, `Between`, `BinaryOp` are the named
arms; `unaryOp` stands for the wildcard arm (expression kinds the
traversal does not recurse into). The binary and unary operator tags are
modelled as strings since the code never inspects them. -/
inductive Expr where
  | value (v : Value)
  | identifier (id : Ident)
  | nested (e : Expr)
  | between (e : Expr) (negated : Bool) (low : Expr) (high : Expr)
  | binaryOp (left : Expr) (op : String) (right : Expr)
  | unaryOp (op : String) (e : Expr)
deriving DecidableEq

mutual

/-- sqlparser `ast::Query`: only the body is traversed, so only the body
is modelled. -/
inductive Query where
  | mk (body : SetExpr)

/-- Subset of sqlparser `ast::SetExpr` matched by `visit_set_expr`:
`Select`, `Query`, `SetOperation` are the named arms; `values` (a raw
value list) stands for the wildcard arm. The set operator and the ALL
flag are carried but never inspected by the traversal. -/
inductive SetExpr where
  | select (s : Select)
  | query (q : Query)
  | setOperation (op : String) (all : Bool) (left : SetExpr) (right : SetExpr)
  | values (rows : List Expr)

/-- sqlparser `ast::Select` fields used by `visit_select`: the optional
WHERE clause (`selection`) and the FROM list; `projection` is carried as
data the traversal never touches. -/
inductive Select where
  | mk (projection : List Expr) (selection : Option Expr) (from_ : List TableWithJoins)

/-- sqlparser `ast::TableWithJoins`. -/
inductive TableWithJoins where
  | mk (relation : TableFactor) (joins : List Join)

/-- sqlparser `ast::Join`: only the relation is traversed; the join
operator is carried as an uninspected tag. -/
inductive Join where
  | mk (relation : TableFactor) (joinOperator : String)

/-- Subset of sqlparser `ast::TableFactor` matched by
`visit_table_factor`: `Derived` is the named arm; `table` (a plain table
reference) stands for the wildcard arm. -/
inductive TableFactor where
  | table (name : String)
  | derived (subquery : Query)

end

/-- sqlparser `ast::Statement`: `Query` is the arm `visit_statement`
recurses into; `other` stands for every other statement kind (the
wildcard no-op arm). -/
inductive Statement where
  | query (q : Query)
  | other (s : String)

/-- The `PlaceholderValue` enum of portal.rs. -/
inductive PlaceholderValue where
  | String (v : String)
  | Int64 (v : Int)
  | UInt64 (v : Nat)
  | Bool (v : Bool)
deriving DecidableEq

/-- The `StatementBinder` struct: cursor plus ordered value list. -/
structure StatementBinder where
  position : Nat
  values : List PlaceholderValue
deriving DecidableEq

/-- `StatementBinder::new`: cursor at 0 over the given values. -/
def StatementBinder.new (values : List PlaceholderValue) : StatementBinder :=
  ⟨0, values⟩

/-- The literal a bound value is rewritten to, following the four match
arms in `StatementBinder::visit_value` (portal.rs lines 121-134):
String becomes a single-quoted string, Bool a boolean literal, UInt64 a
number flagged non-negative, Int64 a number flagged negative exactly
when the value is below zero. -/
def literalOf : PlaceholderValue → Value
  | PlaceholderValue.String v => Value.singleQuotedString v
  | PlaceholderValue.Bool v => Value.boolean v
  | PlaceholderValue.UInt64 v => Value.number (toString v) false
  | PlaceholderValue.Int64 v => Value.number (toString v) (decide (v < 0))

/-- `StatementBinder::visit_value`: on a placeholder, look up
`values[position]` (the `expect` panic on a missing entry is the `none`
branch), advance the cursor, and replace the node with the literal form
of the value; every other value node is left unchanged. -/
def visit_value : Value → StatementBinder → Option (Value × StatementBinder)
  | Value.placeholder _, s =>
      match s.values[s.position]? with
      | some to_replace =>
          some (literalOf to_replace, StatementBinder.mk (s.position + 1) s.values)
      | none => none
  | v, s => some (v, s)

/-- `Visitor::visit_identifier` default: no-op. -/
def visit_identifier (id : Ident) (s : StatementBinder) :
    Option (Ident × StatementBinder) :=
  some (id, s)

/-- `Visitor::visit_expr` default, with the binder override of
`visit_value` in place: dispatch on the expression kind, recursing in
source order (Between: expr, low, high; BinaryOp: left, right); the
wildcard arm leaves the node untouched. -/
def visit_expr : Expr → StatementBinder → Option (Expr × StatementBinder)
  | Expr.value v, s =>
      (visit_value v s).bind fun p => some (Expr.value p.1, p.2)
  | Expr.identifier id, s =>
      (visit_identifier id s).bind fun p => some (Expr.identifier p.1, p.2)
  | Expr.nested e, s =>
      (visit_expr e s).bind fun p => some (Expr.nested p.1, p.2)
  | Expr.between e n l h, s =>
      (visit_expr e s).bind fun p1 =>
        (visit_expr l p1.2).bind fun p2 =>
          (visit_expr h p2.2).bind fun p3 =>
            some (Expr.between p1.1 n p2.1 p3.1, p3.2)
  | Expr.binaryOp l op r, s =>
      (visit_expr l s).bind fun p1 =>
        (visit_expr r p1.2).bind fun p2 =>
          some (Expr.binaryOp p1.1 op p2.1, p2.2)
  | Expr.unaryOp op e, s => some (Expr.unaryOp op e, s)

/-- Placeholders a value node contributes to the traversal count. -/
def countValue : Value → Nat
  | Value.placeholder _ => 1
  | _ => 0

/-- Placeholders discoverable below an expression, in the order
`visit_expr` reaches them. -/
def countExpr : Expr → Nat
  | Expr.value v => countValue v
  | Expr.identifier _ => 0
  | Expr.nested e => countExpr e
  | Expr.between e _ l h => countExpr e + countExpr l + countExpr h
  | Expr.binaryOp l _ r => countExpr l + countExpr r
  | Expr.unaryOp _ _ => 0

/-- Specification-side substitution at a value node: the i-th discovered
placeholder receives the literal form of `vs[i]`; a placeholder whose
index is out of range is kept as is (the case never arises under the
success hypotheses below). -/
def substValue (v : Value) (vs : List PlaceholderValue) (i : Nat) : Value :=
  match v with
  | Value.placeholder p =>
      match vs[i]? with
      | some w => literalOf w
      | none => Value.placeholder p
  | v => v

/-- Specification-side substitution below an expression: placeholder
number `i + k` (in traversal order) receives `vs[i + k]`; sibling
offsets are computed from `countExpr`. -/
def substExpr (e : Expr) (vs : List PlaceholderValue) (i : Nat) : Expr :=
  match e with
  | Expr.value v => Expr.value (substValue v vs i)
  | Expr.identifier id => Expr.identifier id
  | Expr.nested e => Expr.nested (substExpr e vs i)
  | Expr.between e n l h =>
      Expr.between (substExpr e vs i) n
        (substExpr l vs (i + countExpr e))
        (substExpr h vs (i + countExpr e + countExpr l))
  | Expr.binaryOp l op r =>
      Expr.binaryOp (substExpr l vs i) op (substExpr r vs (i + countExpr l))
  | Expr.unaryOp op e => Expr.unaryOp op e

theorem visit_value_spec (v : Value) (s : StatementBinder)
    (hpos : s.position ≤ s.values.length) :
    visit_value v s =
      if s.position + countValue v ≤ s.values.length then
        some (substValue v s.values s.position,
          StatementBinder.mk (s.position + countValue v) s.values)
      else none := by
  cases v with
  | placeholder p =>
    simp only [visit_value, countValue, substValue]
    by_cases hlt : s.position < s.values.length
    · rw [List.getElem?_eq_getElem hlt, if_pos (by omega)]
    · rw [List.getElem?_eq_none (by omega), if_neg (by omega)]
  | singleQuotedString str =>
    simp only [visit_value, countValue, substValue]
    rw [if_pos (by omega)]
    rfl
  | number d n =>
    simp only [visit_value, countValue, substValue]
    rw [if_pos (by omega)]
    rfl
  | boolean b =>
    simp only [visit_value, countValue, substValue]
    rw [if_pos (by omega)]
    rfl
  | null =>
    simp only [visit_value, countValue, substValue]
    rw [if_pos (by omega)]
    rfl

theorem visit_expr_spec (e : Expr) : ∀ (s : StatementBinder),
    s.position ≤ s.values.length →
    visit_expr e s =
      if s.position + countExpr e ≤ s.values.length then
        some (substExpr e s.values s.position,
          StatementBinder.mk (s.position + countExpr e) s.values)
      else none := by
  induction e with
  | value v =>
    intro s hpos
    rw [visit_expr, visit_value_spec v s hpos]
    simp only [countExpr, substExpr]
    by_cases hc : s.position + countValue v ≤ s.values.length
    · rw [if_pos hc, if_pos hc]
      rfl
    · rw [if_neg hc, if_neg hc]
      rfl
  | identifier id =>
    intro s hpos
    simp only [visit_expr, visit_identifier, countExpr, substExpr, Option.some_bind']
    rw [if_pos (by omega)]
    rfl
  | nested e ih =>
    intro s hpos
    rw [visit_expr, ih s hpos]
    simp only [countExpr, substExpr]
    by_cases hc : s.position + countExpr e ≤ s.values.length
    · rw [if_pos hc, if_pos hc]
      rfl
    · rw [if_neg hc, if_neg hc]
      rfl
  | between e n l h ihe ihl ihh =>
    intro s hpos
    rw [visit_expr, ihe s hpos]
    simp only [countExpr, substExpr]
    by_cases hce : s.position + countExpr e ≤ s.values.length
    · rw [if_pos hce]
      simp only [Option.some_bind']
      rw [ihl (StatementBinder.mk (s.position + countExpr e) s.values) hce]
      by_cases hcl : s.position + countExpr e + countExpr l ≤ s.values.length
      · rw [if_pos hcl]
        simp only [Option.some_bind']
        rw [ihh (StatementBinder.mk (s.position + countExpr e + countExpr l) s.values) hcl]
        by_cases hch :
            s.position + countExpr e + countExpr l + countExpr h ≤ s.values.length
        · rw [if_pos hch]
          simp only [Option.some_bind']
          rw [if_pos (by omega)]
          have hx : s.position + countExpr e + countExpr l + countExpr h
              = s.position + (countExpr e + countExpr l + countExpr h) := by omega
          rw [hx]
        · rw [if_neg hch]
          simp only [Option.none_bind']
          rw [if_neg (by omega)]
      · rw [if_neg hcl]
        simp only [Option.none_bind']
        rw [if_neg (by omega)]
    · rw [if_neg hce]
      simp only [Option.none_bind']
      rw [if_neg (by omega)]
  | binaryOp l op r ihl ihr =>
    intro s hpos
    rw [visit_expr, ihl s hpos]
    simp only [countExpr, substExpr]
    by_cases hcl : s.position + countExpr l ≤ s.values.length
    · rw [if_pos hcl]
      simp only [Option.some_bind']
      rw [ihr (StatementBinder.mk (s.position + countExpr l) s.values) hcl]
      by_cases hcr : s.position + countExpr l + countExpr r ≤ s.values.length
      · rw [if_pos hcr]
        simp only [Option.some_bind']
        rw [if_pos (by omega)]
        have hx : s.position + countExpr l + countExpr r
            = s.position + (countExpr l + countExpr r) := by omega
        rw [hx]
      · rw [if_neg hcr]
        simp only [Option.none_bind']
        rw [if_neg (by omega)]
    · rw [if_neg hcl]
      simp only [Option.none_bind']
      rw [if_neg (by omega)]
  | unaryOp op e =>
    intro s hpos
    simp only [visit_expr, countExpr, substExpr]
    rw [if_pos (by omega)]
    rfl

mutual

/-- `Visitor::visit_query` default: recurse into the body. -/
def visit_query : Query → StatementBinder → Option (Query × StatementBinder)
  | Query.mk body, s =>
      (visit_set_expr body s).bind fun p => some (Query.mk p.1, p.2)

/-- `Visitor::visit_set_expr` default: Select and nested Query recurse;
SetOperation visits the left branch, then the right; the wildcard arm
(raw value lists) is a no-op. -/
def visit_set_expr : SetExpr → StatementBinder → Option (SetExpr × StatementBinder)
  | SetExpr.select sel, s =>
      (visit_select sel s).bind fun p => some (SetExpr.select p.1, p.2)
  | SetExpr.query q, s =>
      (visit_query q s).bind fun p => some (SetExpr.query p.1, p.2)
  | SetExpr.setOperation op all l r, s =>
      (visit_set_expr l s).bind fun p1 =>
        (visit_set_expr r p1.2).bind fun p2 =>
          some (SetExpr.setOperation op all p1.1 p2.1, p2.2)
  | SetExpr.values rows, s => some (SetExpr.values rows, s)

/-- `Visitor::visit_select` default: the WHERE clause (when present)
first, then each table-with-joins of the FROM list in order. -/
def visit_select : Select → StatementBinder → Option (Select × StatementBinder)
  | Select.mk proj none fr, s =>
      (visit_from fr s).bind fun p => some (Select.mk proj none p.1, p.2)
  | Select.mk proj (some sel) fr, s =>
      (visit_expr sel s).bind fun p1 =>
        (visit_from fr p1.2).bind fun p2 =>
          some (Select.mk proj (some p1.1) p2.1, p2.2)

/-- The `for from in &mut select.from` loop of `visit_select`. -/
def visit_from : List TableWithJoins → StatementBinder →
    Option (List TableWithJoins × StatementBinder)
  | [], s => some ([], s)
  | t :: ts, s =>
      (visit_table_with_joins t s).bind fun p1 =>
        (visit_from ts p1.2).bind fun p2 =>
          some (p1.1 :: p2.1, p2.2)

/-- `Visitor::visit_table_with_joins` default: the relation first, then
each join in order. -/
def visit_table_with_joins : TableWithJoins → StatementBinder →
    Option (TableWithJoins × StatementBinder)
  | TableWithJoins.mk rel joins, s =>
      (visit_table_factor rel s).bind fun p1 =>
        (visit_joins joins p1.2).bind fun p2 =>
          some (TableWithJoins.mk p1.1 p2.1, p2.2)

/-- The `for join in &mut twj.joins` loop of `visit_table_with_joins`. -/
def visit_joins : List Join → StatementBinder → Option (List Join × StatementBinder)
  | [], s => some ([], s)
  | j :: js, s =>
      (visit_join j s).bind fun p1 =>
        (visit_joins js p1.2).bind fun p2 =>
          some (p1.1 :: p2.1, p2.2)

/-- `Visitor::visit_join` default: recurse into the relation. -/
def visit_join : Join → StatementBinder → Option (Join × StatementBinder)
  | Join.mk rel oper, s =>
      (visit_table_factor rel s).bind fun p => some (Join.mk p.1 oper, p.2)

/-- `Visitor::visit_table_factor` default: only a Derived factor
recurses, into its subquery; plain table references are a no-op. -/
def visit_table_factor : TableFactor → StatementBinder →
    Option (TableFactor × StatementBinder)
  | TableFactor.table n, s => some (TableFactor.table n, s)
  | TableFactor.derived q, s =>
      (visit_query q s).bind fun p => some (TableFactor.derived p.1, p.2)

end

/-- `Visitor::visit_statement` default: only a Query statement recurses;
every other statement kind is a no-op. -/
def visit_statement : Statement → StatementBinder → Option (Statement × StatementBinder)
  | Statement.query q, s =>
      (visit_query q s).bind fun p => some (Statement.query p.1, p.2)
  | Statement.other str, s => some (Statement.other str, s)

/-- `StatementBinder::bind`: drive the traversal over the statement.
The Rust method mutates in place and returns unit; the embedding returns
the rebuilt statement and the final binder, `none` standing for the
`expect` panic. -/
def StatementBinder.bind (self : StatementBinder) (stmt : Statement) :
    Option (Statement × StatementBinder) :=
  visit_statement stmt self

mutual

/-- Placeholders discoverable below a query, in traversal order. -/
def countQuery : Query → Nat
  | Query.mk body => countSetExpr body

/-- Placeholders discoverable below a set expression. -/
def countSetExpr : SetExpr → Nat
  | SetExpr.select sel => countSelect sel
  | SetExpr.query q => countQuery q
  | SetExpr.setOperation _ _ l r => countSetExpr l + countSetExpr r
  | SetExpr.values _ => 0

/-- Placeholders discoverable below a select. -/
def countSelect : Select → Nat
  | Select.mk _ none fr => countFrom fr
  | Select.mk _ (some sel) fr => countExpr sel + countFrom fr

/-- Placeholders discoverable below a FROM list. -/
def countFrom : List TableWithJoins → Nat
  | [] => 0
  | t :: ts => countTableWithJoins t + countFrom ts

/-- Placeholders discoverable below a table-with-joins. -/
def countTableWithJoins : TableWithJoins → Nat
  | TableWithJoins.mk rel joins => countTableFactor rel + countJoins joins

/-- Placeholders discoverable below a join list. -/
def countJoins : List Join → Nat
  | [] => 0
  | j :: js => countJoin j + countJoins js

/-- Placeholders discoverable below a join. -/
def countJoin : Join → Nat
  | Join.mk rel _ => countTableFactor rel

/-- Placeholders discoverable below a table factor. -/
def countTableFactor : TableFactor → Nat
  | TableFactor.table _ => 0
  | TableFactor.derived q => countQuery q

end

/-- Placeholders discoverable below a statement. -/
def countStatement : Statement → Nat
  | Statement.query q => countQuery q
  | Statement.other _ => 0

mutual

/-- Specification-side substitution below a query. -/
def substQuery (q : Query) (vs : List PlaceholderValue) (i : Nat) : Query :=
  match q with
  | Query.mk body => Query.mk (substSetExpr body vs i)

/-- Specification-side substitution below a set expression: the right
branch of a set operation starts after the placeholders of the left. -/
def substSetExpr (x : SetExpr) (vs : List PlaceholderValue) (i : Nat) : SetExpr :=
  match x with
  | SetExpr.select sel => SetExpr.select (substSelect sel vs i)
  | SetExpr.query q => SetExpr.query (substQuery q vs i)
  | SetExpr.setOperation op all l r =>
      SetExpr.setOperation op all (substSetExpr l vs i)
        (substSetExpr r vs (i + countSetExpr l))
  | SetExpr.values rows => SetExpr.values rows

/-- Specification-side substitution below a select: WHERE placeholders
come before FROM placeholders. -/
def substSelect (sel : Select) (vs : List PlaceholderValue) (i : Nat) : Select :=
  match sel with
  | Select.mk proj none fr => Select.mk proj none (substFrom fr vs i)
  | Select.mk proj (some w) fr =>
      Select.mk proj (some (substExpr w vs i)) (substFrom fr vs (i + countExpr w))

/-- Specification-side substitution below a FROM list, in listed order. -/
def substFrom (fr : List TableWithJoins) (vs : List PlaceholderValue) (i : Nat) :
    List TableWithJoins :=
  match fr with
  | [] => []
  | t :: ts => substTableWithJoins t vs i :: substFrom ts vs (i + countTableWithJoins t)

/-- Specification-side substitution below a table-with-joins. -/
def substTableWithJoins (t : TableWithJoins) (vs : List PlaceholderValue) (i : Nat) :
    TableWithJoins :=
  match t with
  | TableWithJoins.mk rel joins =>
      TableWithJoins.mk (substTableFactor rel vs i)
        (substJoins joins vs (i + countTableFactor rel))

/-- Specification-side substitution below a join list, in listed order. -/
def substJoins (js : List Join) (vs : List PlaceholderValue) (i : Nat) : List Join :=
  match js with
  | [] => []
  | j :: rest => substJoin j vs i :: substJoins rest vs (i + countJoin j)

/-- Specification-side substitution below a join. -/
def substJoin (j : Join) (vs : List PlaceholderValue) (i : Nat) : Join :=
  match j with
  | Join.mk rel oper => Join.mk (substTableFactor rel vs i) oper

/-- Specification-side substitution below a table factor. -/
def substTableFactor (f : TableFactor) (vs : List PlaceholderValue) (i : Nat) :
    TableFactor :=
  match f with
  | TableFactor.table n => TableFactor.table n
  | TableFactor.derived q => TableFactor.derived (substQuery q vs i)

end

/-- Specification-side substitution below a statement. -/
def substStatement (stmt : Statement) (vs : List PlaceholderValue) (i : Nat) :
    Statement :=
  match stmt with
  | Statement.query q => Statement.query (substQuery q vs i)
  | Statement.other str => Statement.other str

mutual

theorem visit_query_spec (q : Query) : ∀ (s : StatementBinder),
    s.position ≤ s.values.length →
    visit_query q s =
      if s.position + countQuery q ≤ s.values.length then
        some (substQuery q s.values s.position,
          StatementBinder.mk (s.position + countQuery q) s.values)
      else none := by
  intro s hpos
  cases q with
  | mk body =>
    rw [visit_query, visit_set_expr_spec body s hpos]
    simp only [countQuery, substQuery]
    by_cases hc : s.position + countSetExpr body ≤ s.values.length
    · rw [if_pos hc, if_pos hc]
      rfl
    · rw [if_neg hc, if_neg hc]
      rfl

theorem visit_set_expr_spec (x : SetExpr) : ∀ (s : StatementBinder),
    s.position ≤ s.values.length →
    visit_set_expr x s =
      if s.position + countSetExpr x ≤ s.values.length then
        some (substSetExpr x s.values s.position,
          StatementBinder.mk (s.position + countSetExpr x) s.values)
      else none := by
  intro s hpos
  cases x with
  | select sel =>
    rw [visit_set_expr, visit_select_spec sel s hpos]
    simp only [countSetExpr, substSetExpr]
    by_cases hc : s.position + countSelect sel ≤ s.values.length
    · rw [if_pos hc, if_pos hc]
      rfl
    · rw [if_neg hc, if_neg hc]
      rfl
  | query q =>
    rw [visit_set_expr, visit_query_spec q s hpos]
    simp only [countSetExpr, substSetExpr]
    by_cases hc : s.position + countQuery q ≤ s.values.length
    · rw [if_pos hc, if_pos hc]
      rfl
    · rw [if_neg hc, if_neg hc]
      rfl
  | setOperation op all l r =>
    rw [visit_set_expr, visit_set_expr_spec l s hpos]
    simp only [countSetExpr, substSetExpr]
    by_cases hcl : s.position + countSetExpr l ≤ s.values.length
    · rw [if_pos hcl]
      simp only [Option.some_bind']
      rw [visit_set_expr_spec r (StatementBinder.mk (s.position + countSetExpr l) s.values) hcl]
      by_cases hcr : s.position + countSetExpr l + countSetExpr r ≤ s.values.length
      · rw [if_pos hcr]
        simp only [Option.some_bind']
        rw [if_pos (by omega)]
        have hx : s.position + countSetExpr l + countSetExpr r
            = s.position + (countSetExpr l + countSetExpr r) := by omega
        rw [hx]
      · rw [if_neg hcr]
        simp only [Option.none_bind']
        rw [if_neg (by omega)]
    · rw [if_neg hcl]
      simp only [Option.none_bind']
      rw [if_neg (by omega)]
  | values rows =>
    simp only [visit_set_expr, countSetExpr, substSetExpr]
    rw [if_pos (by omega)]
    rfl

theorem visit_select_spec (sel : Select) : ∀ (s : StatementBinder),
    s.position ≤ s.values.length →
    visit_select sel s =
      if s.position + countSelect sel ≤ s.values.length then
        some (substSelect sel s.values s.position,
          StatementBinder.mk (s.position + countSelect sel) s.values)
      else none := by
  intro s hpos
  cases sel with
  | mk proj osel fr =>
    cases osel with
    | none =>
      rw [visit_select, visit_from_spec fr s hpos]
      simp only [countSelect, substSelect]
      by_cases hc : s.position + countFrom fr ≤ s.values.length
      · rw [if_pos hc, if_pos hc]
        rfl
      · rw [if_neg hc, if_neg hc]
        rfl
    | some w =>
      rw [visit_select, visit_expr_spec w s hpos]
      simp only [countSelect, substSelect]
      by_cases hcw : s.position + countExpr w ≤ s.values.length
      · rw [if_pos hcw]
        simp only [Option.some_bind']
        rw [visit_from_spec fr (StatementBinder.mk (s.position + countExpr w) s.values) hcw]
        by_cases hcf : s.position + countExpr w + countFrom fr ≤ s.values.length
        · rw [if_pos hcf]
          simp only [Option.some_bind']
          rw [if_pos (by omega)]
          have hx : s.position + countExpr w + countFrom fr
              = s.position + (countExpr w + countFrom fr) := by omega
          rw [hx]
        · rw [if_neg hcf]
          simp only [Option.none_bind']
          rw [if_neg (by omega)]
      · rw [if_neg hcw]
        simp only [Option.none_bind']
        rw [if_neg (by omega)]

theorem visit_from_spec (fr : List TableWithJoins) : ∀ (s : StatementBinder),
    s.position ≤ s.values.length →
    visit_from fr s =
      if s.position + countFrom fr ≤ s.values.length then
        some (substFrom fr s.values s.position,
          StatementBinder.mk (s.position + countFrom fr) s.values)
      else none := by
  intro s hpos
  cases fr with
  | nil =>
    simp only [visit_from, countFrom, substFrom]
    rw [if_pos (by omega)]
    rfl
  | cons t ts =>
    rw [visit_from, visit_table_with_joins_spec t s hpos]
    simp only [countFrom, substFrom]
    by_cases hct : s.position + countTableWithJoins t ≤ s.values.length
    · rw [if_pos hct]
      simp only [Option.some_bind']
      rw [visit_from_spec ts (StatementBinder.mk (s.position + countTableWithJoins t) s.values) hct]
      by_cases hcs : s.position + countTableWithJoins t + countFrom ts ≤ s.values.length
      · rw [if_pos hcs]
        simp only [Option.some_bind']
        rw [if_pos (by omega)]
        have hx : s.position + countTableWithJoins t + countFrom ts
            = s.position + (countTableWithJoins t + countFrom ts) := by omega
        rw [hx]
      · rw [if_neg hcs]
        simp only [Option.none_bind']
        rw [if_neg (by omega)]
    · rw [if_neg hct]
      simp only [Option.none_bind']
      rw [if_neg (by omega)]

theorem visit_table_with_joins_spec (t : TableWithJoins) : ∀ (s : StatementBinder),
    s.position ≤ s.values.length →
    visit_table_with_joins t s =
      if s.position + countTableWithJoins t ≤ s.values.length then
        some (substTableWithJoins t s.values s.position,
          StatementBinder.mk (s.position + countTableWithJoins t) s.values)
      else none := by
  intro s hpos
  cases t with
  | mk rel joins =>
    rw [visit_table_with_joins, visit_table_factor_spec rel s hpos]
    simp only [countTableWithJoins, substTableWithJoins]
    by_cases hcr : s.position + countTableFactor rel ≤ s.values.length
    · rw [if_pos hcr]
      simp only [Option.some_bind']
      rw [visit_joins_spec joins (StatementBinder.mk (s.position + countTableFactor rel) s.values) hcr]
      by_cases hcj : s.position + countTableFactor rel + countJoins joins ≤ s.values.length
      · rw [if_pos hcj]
        simp only [Option.some_bind']
        rw [if_pos (by omega)]
        have hx : s.position + countTableFactor rel + countJoins joins
            = s.position + (countTableFactor rel + countJoins joins) := by omega
        rw [hx]
      · rw [if_neg hcj]
        simp only [Option.none_bind']
        rw [if_neg (by omega)]
    · rw [if_neg hcr]
      simp only [Option.none_bind']
      rw [if_neg (by omega)]

theorem visit_joins_spec (js : List Join) : ∀ (s : StatementBinder),
    s.position ≤ s.values.length →
    visit_joins js s =
      if s.position + countJoins js ≤ s.values.length then
        some (substJoins js s.values s.position,
          StatementBinder.mk (s.position + countJoins js) s.values)
      else none := by
  intro s hpos
  cases js with
  | nil =>
    simp only [visit_joins, countJoins, substJoins]
    rw [if_pos (by omega)]
    rfl
  | cons j rest =>
    rw [visit_joins, visit_join_spec j s hpos]
    simp only [countJoins, substJoins]
    by_cases hcj : s.position + countJoin j ≤ s.values.length
    · rw [if_pos hcj]
      simp only [Option.some_bind']
      rw [visit_joins_spec rest (StatementBinder.mk (s.position + countJoin j) s.values) hcj]
      by_cases hcs : s.position + countJoin j + countJoins rest ≤ s.values.length
      · rw [if_pos hcs]
        simp only [Option.some_bind']
        rw [if_pos (by omega)]
        have hx : s.position + countJoin j + countJoins rest
            = s.position + (countJoin j + countJoins rest) := by omega
        rw [hx]
      · rw [if_neg hcs]
        simp only [Option.none_bind']
        rw [if_neg (by omega)]
    · rw [if_neg hcj]
      simp only [Option.none_bind']
      rw [if_neg (by omega)]

theorem visit_join_spec (j : Join) : ∀ (s : StatementBinder),
    s.position ≤ s.values.length →
    visit_join j s =
      if s.position + countJoin j ≤ s.values.length then
        some (substJoin j s.values s.position,
          StatementBinder.mk (s.position + countJoin j) s.values)
      else none := by
  intro s hpos
  cases j with
  | mk rel oper =>
    rw [visit_join, visit_table_factor_spec rel s hpos]
    simp only [countJoin, substJoin]
    by_cases hc : s.position + countTableFactor rel ≤ s.values.length
    · rw [if_pos hc, if_pos hc]
      rfl
    · rw [if_neg hc, if_neg hc]
      rfl

theorem visit_table_factor_spec (f : TableFactor) : ∀ (s : StatementBinder),
    s.position ≤ s.values.length →
    visit_table_factor f s =
      if s.position + countTableFactor f ≤ s.values.length then
        some (substTableFactor f s.values s.position,
          StatementBinder.mk (s.position + countTableFactor f) s.values)
      else none := by
  intro s hpos
  cases f with
  | table n =>
    simp only [visit_table_factor, countTableFactor, substTableFactor]
    rw [if_pos (by omega)]
    rfl
  | derived q =>
    rw [visit_table_factor, visit_query_spec q s hpos]
    simp only [countTableFactor, substTableFactor]
    by_cases hc : s.position + countQuery q ≤ s.values.length
    · rw [if_pos hc, if_pos hc]
      rfl
    · rw [if_neg hc, if_neg hc]
      rfl

end

theorem visit_statement_spec (stmt : Statement) (s : StatementBinder)
    (hpos : s.position ≤ s.values.length) :
    visit_statement stmt s =
      if s.position + countStatement stmt ≤ s.values.length then
        some (substStatement stmt s.values s.position,
          StatementBinder.mk (s.position + countStatement stmt) s.values)
      else none := by
  cases stmt with
  | query q =>
    rw [visit_statement, visit_query_spec q s hpos]
    simp only [countStatement, substStatement]
    by_cases hc : s.position + countQuery q ≤ s.values.length
    · rw [if_pos hc, if_pos hc]
      rfl
    · rw [if_neg hc, if_neg hc]
      rfl
  | other str =>
    simp only [visit_statement, countStatement, substStatement]
    rw [if_pos (by omega)]
    rfl

/-- Frame relation at a value node: the output must equal the input
unless the input is a placeholder marker, the only node kind
`StatementBinder::visit_value` rewrites. -/
def valueAgrees : Value → Value → Bool
  | Value.placeholder _, _ => true
  | v, w => decide (v = w)

/-- Frame relation below an expression: same shape, equal at every
non-placeholder leaf. -/
def exprAgrees : Expr → Expr → Bool
  | Expr.value v, Expr.value w => valueAgrees v w
  | Expr.identifier a, Expr.identifier b => decide (a = b)
  | Expr.nested a, Expr.nested b => exprAgrees a b
  | Expr.between a n l h, Expr.between a2 n2 l2 h2 =>
      exprAgrees a a2 && decide (n = n2) && exprAgrees l l2 && exprAgrees h h2
  | Expr.binaryOp l op r, Expr.binaryOp l2 op2 r2 =>
      exprAgrees l l2 && decide (op = op2) && exprAgrees r r2
  | Expr.unaryOp op e, Expr.unaryOp op2 e2 => decide (op = op2) && decide (e = e2)
  | _, _ => false

/-- Frame relation for the optional WHERE clause. -/
def optionExprAgrees : Option Expr → Option Expr → Bool
  | none, none => true
  | some a, some b => exprAgrees a b
  | _, _ => false

mutual

/-- Frame relation below a query. -/
def queryAgrees : Query → Query → Bool
  | Query.mk b1, Query.mk b2 => setExprAgrees b1 b2

/-- Frame relation below a set expression. -/
def setExprAgrees : SetExpr → SetExpr → Bool
  | SetExpr.select s1, SetExpr.select s2 => selectAgrees s1 s2
  | SetExpr.query q1, SetExpr.query q2 => queryAgrees q1 q2
  | SetExpr.setOperation o1 a1 l1 r1, SetExpr.setOperation o2 a2 l2 r2 =>
      decide (o1 = o2) && decide (a1 = a2) && setExprAgrees l1 l2 && setExprAgrees r1 r2
  | SetExpr.values r1, SetExpr.values r2 => decide (r1 = r2)
  | _, _ => false

/-- Frame relation below a select. -/
def selectAgrees : Select → Select → Bool
  | Select.mk p1 s1 f1, Select.mk p2 s2 f2 =>
      decide (p1 = p2) && optionExprAgrees s1 s2 && fromAgrees f1 f2

/-- Frame relation below a FROM list: same length, pointwise agreement. -/
def fromAgrees : List TableWithJoins → List TableWithJoins → Bool
  | [], [] => true
  | t :: ts, u :: us => twjAgrees t u && fromAgrees ts us
  | _, _ => false

/-- Frame relation below a table-with-joins. -/
def twjAgrees : TableWithJoins → TableWithJoins → Bool
  | TableWithJoins.mk r1 j1, TableWithJoins.mk r2 j2 =>
      tableFactorAgrees r1 r2 && joinsAgrees j1 j2

/-- Frame relation below a join list. -/
def joinsAgrees : List Join → List Join → Bool
  | [], [] => true
  | j :: js, k :: ks => joinAgrees j k && joinsAgrees js ks
  | _, _ => false

/-- Frame relation below a join. -/
def joinAgrees : Join → Join → Bool
  | Join.mk r1 o1, Join.mk r2 o2 => tableFactorAgrees r1 r2 && decide (o1 = o2)

/-- Frame relation below a table factor. -/
def tableFactorAgrees : TableFactor → TableFactor → Bool
  | TableFactor.table n1, TableFactor.table n2 => decide (n1 = n2)
  | TableFactor.derived q1, TableFactor.derived q2 => queryAgrees q1 q2
  | _, _ => false

end

/-- Frame relation below a statement. -/
def statementAgrees : Statement → Statement → Bool
  | Statement.query q1, Statement.query q2 => queryAgrees q1 q2
  | Statement.other a, Statement.other b => decide (a = b)
  | _, _ => false

theorem valueAgrees_subst (v : Value) (vs : List PlaceholderValue) (i : Nat) :
    valueAgrees v (substValue v vs i) = true := by
  cases v <;> simp [valueAgrees, substValue]

theorem exprAgrees_subst (e : Expr) : ∀ (vs : List PlaceholderValue) (i : Nat),
    exprAgrees e (substExpr e vs i) = true := by
  induction e with
  | value v => intro vs i; simpa [substExpr, exprAgrees] using valueAgrees_subst v vs i
  | identifier id => intro vs i; simp [substExpr, exprAgrees]
  | nested e ih => intro vs i; simp [substExpr, exprAgrees, ih]
  | between e n l h ihe ihl ihh => intro vs i; simp [substExpr, exprAgrees, ihe, ihl, ihh]
  | binaryOp l op r ihl ihr => intro vs i; simp [substExpr, exprAgrees, ihl, ihr]
  | unaryOp op e => intro vs i; simp [substExpr, exprAgrees]

theorem optionExprAgrees_subst (o : Option Expr) (vs : List PlaceholderValue) (i : Nat) :
    optionExprAgrees o (o.map (fun w => substExpr w vs i)) = true := by
  cases o with
  | none => rfl
  | some w => simpa [optionExprAgrees] using exprAgrees_subst w vs i

mutual

theorem queryAgrees_subst (q : Query) : ∀ (vs : List PlaceholderValue) (i : Nat),
    queryAgrees q (substQuery q vs i) = true := by
  intro vs i
  cases q with
  | mk body => simpa [substQuery, queryAgrees] using setExprAgrees_subst body vs i

theorem setExprAgrees_subst (x : SetExpr) : ∀ (vs : List PlaceholderValue) (i : Nat),
    setExprAgrees x (substSetExpr x vs i) = true := by
  intro vs i
  cases x with
  | select sel => simpa [substSetExpr, setExprAgrees] using selectAgrees_subst sel vs i
  | query q => simpa [substSetExpr, setExprAgrees] using queryAgrees_subst q vs i
  | setOperation op all l r =>
    simp [substSetExpr, setExprAgrees, setExprAgrees_subst l, setExprAgrees_subst r]
  | values rows => simp [substSetExpr, setExprAgrees]

theorem selectAgrees_subst (sel : Select) : ∀ (vs : List PlaceholderValue) (i : Nat),
    selectAgrees sel (substSelect sel vs i) = true := by
  intro vs i
  cases sel with
  | mk proj osel fr =>
    cases osel with
    | none => simp [substSelect, selectAgrees, optionExprAgrees, fromAgrees_subst fr]
    | some w =>
      simp [substSelect, selectAgrees, optionExprAgrees, exprAgrees_subst w,
        fromAgrees_subst fr]

theorem fromAgrees_subst (fr : List TableWithJoins) :
    ∀ (vs : List PlaceholderValue) (i : Nat),
    fromAgrees fr (substFrom fr vs i) = true := by
  intro vs i
  cases fr with
  | nil => simp [substFrom, fromAgrees]
  | cons t ts => simp [substFrom, fromAgrees, twjAgrees_subst t, fromAgrees_subst ts]

theorem twjAgrees_subst (t : TableWithJoins) : ∀ (vs : List PlaceholderValue) (i : Nat),
    twjAgrees t (substTableWithJoins t vs i) = true := by
  intro vs i
  cases t with
  | mk rel joins =>
    simp [substTableWithJoins, twjAgrees, tableFactorAgrees_subst rel,
      joinsAgrees_subst joins]

theorem joinsAgrees_subst (js : List Join) : ∀ (vs : List PlaceholderValue) (i : Nat),
    joinsAgrees js (substJoins js vs i) = true := by
  intro vs i
  cases js with
  | nil => simp [substJoins, joinsAgrees]
  | cons j rest => simp [substJoins, joinsAgrees, joinAgrees_subst j, joinsAgrees_subst rest]

theorem joinAgrees_subst (j : Join) : ∀ (vs : List PlaceholderValue) (i : Nat),
    joinAgrees j (substJoin j vs i) = true := by
  intro vs i
  cases j with
  | mk rel oper => simp [substJoin, joinAgrees, tableFactorAgrees_subst rel]

theorem tableFactorAgrees_subst (f : TableFactor) : ∀ (vs : List PlaceholderValue) (i : Nat),
    tableFactorAgrees f (substTableFactor f vs i) = true := by
  intro vs i
  cases f with
  | table n => simp [substTableFactor, tableFactorAgrees]
  | derived q => simpa [substTableFactor, tableFactorAgrees] using queryAgrees_subst q vs i

end

theorem statementAgrees_subst (stmt : Statement) (vs : List PlaceholderValue) (i : Nat) :
    statementAgrees stmt (substStatement stmt vs i) = true := by
  cases stmt with
  | query q => simpa [substStatement, statementAgrees] using queryAgrees_subst q vs i
  | other str => simp [substStatement, statementAgrees]

/-- C1: for every statement tree whose number of placeholders
discoverable by the traversal equals the length of the value list,
bind() succeeds (no panic, modelled as a `some` result) and the
resulting tree equals the input tree with each discoverable placeholder
replaced, in traversal order, by the literal form of its corresponding
value: the i-th discovered placeholder receives values[i], as expressed
by the specification-side substitution `substStatement`. -/
theorem binder_bind_complete_success (stmt : Statement) (vs : List PlaceholderValue)
    (h : countStatement stmt = vs.length) :
    StatementBinder.bind (StatementBinder.new vs) stmt
      = some (substStatement stmt vs 0, StatementBinder.mk vs.length vs) := by
  unfold StatementBinder.bind
  rw [visit_statement_spec stmt (StatementBinder.new vs) (Nat.zero_le _)]
  rw [if_pos (by simp only [StatementBinder.new]; omega)]
  simp only [StatementBinder.new]
  rw [Nat.zero_add, h]

/-- Scenario from the repository test suite: two placeholders in a
conjunction of comparisons. -/
def c1Stmt : Statement :=
  Statement.query (Query.mk (SetExpr.select (Select.mk []
    (some (Expr.binaryOp
      (Expr.binaryOp (Expr.identifier (Ident.mk "fieldA")) "="
        (Expr.value (Value.placeholder "$1")))
      "AND"
      (Expr.binaryOp (Expr.identifier (Ident.mk "fieldB")) "="
        (Expr.value (Value.placeholder "$2")))))
    [TableWithJoins.mk (TableFactor.table "testdata") []])))

/-- The value list bound in the scenario above. -/
def c1Vals : List PlaceholderValue :=
  [PlaceholderValue.String "test", PlaceholderValue.Int64 1]

/-- The expected output tree: both placeholders replaced by literals. -/
def c1Bound : Statement :=
  Statement.query (Query.mk (SetExpr.select (Select.mk []
    (some (Expr.binaryOp
      (Expr.binaryOp (Expr.identifier (Ident.mk "fieldA")) "="
        (Expr.value (Value.singleQuotedString "test")))
      "AND"
      (Expr.binaryOp (Expr.identifier (Ident.mk "fieldB")) "="
        (Expr.value (Value.number "1" false)))))
    [TableWithJoins.mk (TableFactor.table "testdata") []])))

/-- Witness for C1 at the first test scenario of portal.rs. -/
theorem binder_bind_complete_success_witness :
    StatementBinder.bind (StatementBinder.new c1Vals) c1Stmt
      = some (c1Bound, StatementBinder.mk 2 c1Vals) :=
  binder_bind_complete_success c1Stmt c1Vals rfl

/-- Statement with exactly one discoverable placeholder. -/
def c2Stmt : Statement :=
  Statement.query (Query.mk (SetExpr.select (Select.mk []
    (some (Expr.binaryOp (Expr.identifier (Ident.mk "fieldA")) "="
      (Expr.value (Value.placeholder "$1"))))
    [TableWithJoins.mk (TableFactor.table "testdata") []])))

/-- C2 counterexample: a statement with one discoverable placeholder
bound with an empty value list. The Rust code reaches
`self.values.get(self.position).expect("unexpected")` with the cursor
past the end and panics; the embedding yields `none` (the abort), so
bind() produces no reportable InsufficientParameters error value at
all. -/
theorem binder_bind_insufficient_counterexample :
    StatementBinder.bind (StatementBinder.new []) c2Stmt = none := rfl

/-- C2 amended: when the traversal encounters a placeholder with the
cursor at or beyond the end of the value list, bind() aborts through the
`expect` panic (modelled as `none`) instead of returning a reportable
InsufficientParameters error; the bounds are still checked (the lookup
is `Vec::get`, an Option), so there is no out-of-bounds read. -/
theorem binder_bind_insufficient_aborts (stmt : Statement) (vs : List PlaceholderValue)
    (h : vs.length < countStatement stmt) :
    StatementBinder.bind (StatementBinder.new vs) stmt = none := by
  unfold StatementBinder.bind
  rw [visit_statement_spec stmt (StatementBinder.new vs) (Nat.zero_le _)]
  rw [if_neg (by simp only [StatementBinder.new]; omega)]

/-- Statement with two discoverable placeholders (test scenario 6 shape:
fewer values than placeholders). -/
def c2TwoStmt : Statement :=
  Statement.query (Query.mk (SetExpr.select (Select.mk []
    (some (Expr.binaryOp
      (Expr.binaryOp (Expr.identifier (Ident.mk "fieldA")) "="
        (Expr.value (Value.placeholder "$1")))
      "AND"
      (Expr.binaryOp (Expr.identifier (Ident.mk "fieldB")) "="
        (Expr.value (Value.placeholder "$2")))))
    [TableWithJoins.mk (TableFactor.table "testdata") []])))

/-- Witness for the amended C2: one value, two placeholders. -/
theorem binder_bind_insufficient_aborts_witness :
    StatementBinder.bind (StatementBinder.new [PlaceholderValue.String "test"]) c2TwoStmt
      = none :=
  binder_bind_insufficient_aborts c2TwoStmt [PlaceholderValue.String "test"] (by decide)

/-- Statement with no discoverable placeholder. -/
def c3Stmt : Statement :=
  Statement.query (Query.mk (SetExpr.select (Select.mk [] none
    [TableWithJoins.mk (TableFactor.table "testdata") []])))

/-- C3 counterexample: a placeholder-free statement bound with one value.
bind() returns successfully with the cursor still at 0 and the value
unconsumed: no ExcessParameters condition is detected or reported, the
claim as stated fails on the code. -/
theorem binder_bind_excess_counterexample :
    StatementBinder.bind (StatementBinder.new [PlaceholderValue.Bool true]) c3Stmt
      = some (c3Stmt, StatementBinder.mk 0 [PlaceholderValue.Bool true]) := rfl

/-- C3 amended: when the traversal discovers fewer placeholders than
there are values, bind() silently succeeds; the final cursor equals the
number of discoverable placeholders and the surplus values are simply
never consumed. No ExcessParameters check exists in the code. -/
theorem binder_bind_excess_silent (stmt : Statement) (vs : List PlaceholderValue)
    (h : countStatement stmt < vs.length) :
    StatementBinder.bind (StatementBinder.new vs) stmt
      = some (substStatement stmt vs 0, StatementBinder.mk (countStatement stmt) vs) := by
  unfold StatementBinder.bind
  rw [visit_statement_spec stmt (StatementBinder.new vs) (Nat.zero_le _)]
  rw [if_pos (by simp only [StatementBinder.new]; omega)]
  simp only [StatementBinder.new]
  rw [Nat.zero_add]

/-- Witness for the amended C3. -/
theorem binder_bind_excess_silent_witness :
    StatementBinder.bind (StatementBinder.new [PlaceholderValue.Int64 7]) c3Stmt
      = some (c3Stmt, StatementBinder.mk 0 [PlaceholderValue.Int64 7]) :=
  binder_bind_excess_silent c3Stmt [PlaceholderValue.Int64 7] (by decide)

/-- C4: for every statement tree and value list, a successful bind never
changes the count or order of non-placeholder nodes: the output tree
stands in the frame relation `statementAgrees` to the input, which
demands equality of every node except at value leaves whose input is a
placeholder marker (the only nodes `visit_value` rewrites). A failed
bind is the `expect` panic and produces no tree at all. -/
theorem binder_bind_frame (stmt stmt2 : Statement) (vs : List PlaceholderValue)
    (s2 : StatementBinder)
    (h : StatementBinder.bind (StatementBinder.new vs) stmt = some (stmt2, s2)) :
    statementAgrees stmt stmt2 = true := by
  unfold StatementBinder.bind at h
  rw [visit_statement_spec stmt (StatementBinder.new vs) (Nat.zero_le _)] at h
  by_cases hc : (StatementBinder.new vs).position + countStatement stmt ≤
      (StatementBinder.new vs).values.length
  · rw [if_pos hc] at h
    injection h with h2
    have h3 : substStatement stmt (StatementBinder.new vs).values
        (StatementBinder.new vs).position = stmt2 := congrArg Prod.fst h2
    rw [← h3]
    exact statementAgrees_subst stmt _ _
  · rw [if_neg hc] at h
    exact Option.noConfusion h

/-- Statement with one placeholder next to non-placeholder nodes. -/
def c4Stmt : Statement :=
  Statement.query (Query.mk (SetExpr.select (Select.mk []
    (some (Expr.binaryOp (Expr.identifier (Ident.mk "fieldA")) "="
      (Expr.value (Value.placeholder "$1"))))
    [TableWithJoins.mk (TableFactor.table "testdata") []])))

/-- The same statement after binding the string value. -/
def c4Bound : Statement :=
  Statement.query (Query.mk (SetExpr.select (Select.mk []
    (some (Expr.binaryOp (Expr.identifier (Ident.mk "fieldA")) "="
      (Expr.value (Value.singleQuotedString "x"))))
    [TableWithJoins.mk (TableFactor.table "testdata") []])))

/-- Witness for C4: the identifier, operator, table reference and list
structure survive the bind unchanged. -/
theorem binder_bind_frame_witness : statementAgrees c4Stmt c4Bound = true :=
  binder_bind_frame c4Stmt c4Bound [PlaceholderValue.String "x"]
    (StatementBinder.mk 1 [PlaceholderValue.String "x"]) rfl

/-- C5: for every Between expression the traversal visits the
sub-expressions in the order expr, then low, then high (first conjunct:
the exact sequencing of `visit_expr` on a Between node); hence for
`col BETWEEN $1 AND $2` the first value binds the low bound and the
second the high bound (second conjunct, for arbitrary values). -/
theorem visit_expr_between_order :
    (∀ (e : Expr) (n : Bool) (l h : Expr) (s : StatementBinder),
        visit_expr (Expr.between e n l h) s =
          (visit_expr e s).bind fun p1 =>
            (visit_expr l p1.2).bind fun p2 =>
              (visit_expr h p2.2).bind fun p3 =>
                some (Expr.between p1.1 n p2.1 p3.1, p3.2)) ∧
    (∀ (v1 v2 : PlaceholderValue),
        visit_expr (Expr.between (Expr.identifier (Ident.mk "col")) false
            (Expr.value (Value.placeholder "$1")) (Expr.value (Value.placeholder "$2")))
            (StatementBinder.new [v1, v2])
          = some (Expr.between (Expr.identifier (Ident.mk "col")) false
              (Expr.value (literalOf v1)) (Expr.value (literalOf v2)),
              StatementBinder.mk 2 [v1, v2])) :=
  ⟨fun _ _ _ _ _ => rfl, fun _ _ => rfl⟩

/-- C6: for every SetOperation set-expression the traversal fully visits
the left branch before the right (first conjunct: the exact sequencing
of `visit_set_expr` on a SetOperation node); hence when each branch
contains exactly one placeholder, binding two values substitutes the
left branch at index 0 (the first value) and the right branch at index 1
(the second value), per the specification-side substitution. -/
theorem visit_set_operation_left_then_right :
    (∀ (op : String) (all : Bool) (l r : SetExpr) (s : StatementBinder),
        visit_set_expr (SetExpr.setOperation op all l r) s =
          (visit_set_expr l s).bind fun p1 =>
            (visit_set_expr r p1.2).bind fun p2 =>
              some (SetExpr.setOperation op all p1.1 p2.1, p2.2)) ∧
    (∀ (op : String) (all : Bool) (l r : SetExpr) (v1 v2 : PlaceholderValue),
        countSetExpr l = 1 → countSetExpr r = 1 →
        visit_set_expr (SetExpr.setOperation op all l r) (StatementBinder.new [v1, v2])
          = some (SetExpr.setOperation op all (substSetExpr l [v1, v2] 0)
              (substSetExpr r [v1, v2] 1), StatementBinder.mk 2 [v1, v2])) := by
  refine ⟨fun _ _ _ _ _ => rfl, fun op all l r v1 v2 hl hr => ?_⟩
  rw [visit_set_expr_spec _ (StatementBinder.new [v1, v2]) (Nat.zero_le _)]
  rw [if_pos (by simp [StatementBinder.new, countSetExpr, hl, hr])]
  simp only [StatementBinder.new, countSetExpr, substSetExpr, hl, hr, Nat.zero_add]

/-- One-placeholder select branch used to witness C6. -/
def c6Left : SetExpr :=
  SetExpr.select (Select.mk []
    (some (Expr.binaryOp (Expr.identifier (Ident.mk "fieldA")) "="
      (Expr.value (Value.placeholder "$1"))))
    [TableWithJoins.mk (TableFactor.table "testdata") []])

/-- The other one-placeholder select branch used to witness C6. -/
def c6Right : SetExpr :=
  SetExpr.select (Select.mk []
    (some (Expr.binaryOp (Expr.identifier (Ident.mk "fieldA")) "="
      (Expr.value (Value.placeholder "$2"))))
    [TableWithJoins.mk (TableFactor.table "testdata") []])

/-- Witness for C6 at the UNION ALL test scenario of portal.rs: the left
branch receives the first string, the right branch the second. -/
theorem visit_set_operation_left_then_right_witness :
    visit_set_expr (SetExpr.setOperation "UNION" true c6Left c6Right)
        (StatementBinder.new
          [PlaceholderValue.String "test1", PlaceholderValue.String "test2"])
      = some (SetExpr.setOperation "UNION" true
          (SetExpr.select (Select.mk []
            (some (Expr.binaryOp (Expr.identifier (Ident.mk "fieldA")) "="
              (Expr.value (Value.singleQuotedString "test1"))))
            [TableWithJoins.mk (TableFactor.table "testdata") []]))
          (SetExpr.select (Select.mk []
            (some (Expr.binaryOp (Expr.identifier (Ident.mk "fieldA")) "="
              (Expr.value (Value.singleQuotedString "test2"))))
            [TableWithJoins.mk (TableFactor.table "testdata") []])),
          StatementBinder.mk 2
            [PlaceholderValue.String "test1", PlaceholderValue.String "test2"]) :=
  visit_set_operation_left_then_right.2 "UNION" true c6Left c6Right
    (PlaceholderValue.String "test1") (PlaceholderValue.String "test2") rfl rfl

/-- C7: for every Select with a WHERE clause present, the traversal
visits the WHERE expression before any table-with-joins of the FROM
clause (first conjunct), and visits FROM entries in listed order (second
conjunct); hence a placeholder in WHERE is numbered before a placeholder
inside a derived subquery in FROM (third conjunct, for arbitrary
values). -/
theorem visit_select_where_before_from :
    (∀ (proj : List Expr) (w : Expr) (fr : List TableWithJoins) (s : StatementBinder),
        visit_select (Select.mk proj (some w) fr) s =
          (visit_expr w s).bind fun p1 =>
            (visit_from fr p1.2).bind fun p2 =>
              some (Select.mk proj (some p1.1) p2.1, p2.2)) ∧
    (∀ (t : TableWithJoins) (ts : List TableWithJoins) (s : StatementBinder),
        visit_from (t :: ts) s =
          (visit_table_with_joins t s).bind fun p1 =>
            (visit_from ts p1.2).bind fun p2 =>
              some (p1.1 :: p2.1, p2.2)) ∧
    (∀ (v1 v2 : PlaceholderValue),
        visit_select (Select.mk [] (some (Expr.value (Value.placeholder "$1")))
            [TableWithJoins.mk (TableFactor.derived (Query.mk (SetExpr.select
              (Select.mk [] (some (Expr.value (Value.placeholder "$2"))) [])))) []])
            (StatementBinder.new [v1, v2])
          = some (Select.mk [] (some (Expr.value (literalOf v1)))
              [TableWithJoins.mk (TableFactor.derived (Query.mk (SetExpr.select
                (Select.mk [] (some (Expr.value (literalOf v2))) [])))) []],
              StatementBinder.mk 2 [v1, v2])) :=
  ⟨fun _ _ _ _ => rfl, fun _ _ _ => rfl, fun _ _ => rfl⟩

/-- C8: the literal produced for a substituted placeholder is determined
by the value kind: a String value becomes the same quoted string, a Bool
value the same boolean literal, a UInt64 value a numeric literal flagged
non-negative, and an Int64 value a numeric literal whose is-negative
flag is set exactly when the value is below zero. -/
theorem literalOf_rendering :
    (∀ str : String,
        literalOf (PlaceholderValue.String str) = Value.singleQuotedString str) ∧
    (∀ b : Bool, literalOf (PlaceholderValue.Bool b) = Value.boolean b) ∧
    (∀ n : Nat, literalOf (PlaceholderValue.UInt64 n) = Value.number (toString n) false) ∧
    (∀ i : Int,
        literalOf (PlaceholderValue.Int64 i) = Value.number (toString i) (decide (i < 0))) ∧
    (∀ i : Int, decide (i < 0) = true ↔ i < 0) :=
  ⟨fun _ => rfl, fun _ => rfl, fun _ => rfl, fun _ => rfl, fun i => by simp⟩

/-- C9: the binder cursor never rewinds. Across a whole successful
traversal the final position is at least the starting one (first
conjunct, for any binder state a bind call can reach, where the cursor
is within the value list); every successful `visit_value` leaves the
cursor at or above its starting point (second conjunct); and a
placeholder visit advances it by exactly one (third conjunct). -/
theorem binder_position_monotone :
    (∀ (stmt : Statement) (s : StatementBinder) (out : Statement × StatementBinder),
        s.position ≤ s.values.length → visit_statement stmt s = some out →
        s.position ≤ out.2.position) ∧
    (∀ (v : Value) (s : StatementBinder) (out : Value × StatementBinder),
        visit_value v s = some out → s.position ≤ out.2.position) ∧
    (∀ (name : String) (s : StatementBinder) (out : Value × StatementBinder),
        visit_value (Value.placeholder name) s = some out →
        out.2.position = s.position + 1) := by
  refine ⟨?_, ?_, ?_⟩
  · intro stmt s out h1 h2
    rw [visit_statement_spec stmt s h1] at h2
    by_cases hc : s.position + countStatement stmt ≤ s.values.length
    · rw [if_pos hc] at h2
      injection h2 with h3
      rw [← h3]
      exact Nat.le_add_right _ _
    · rw [if_neg hc] at h2
      exact Option.noConfusion h2
  · intro v s out h
    cases v with
    | placeholder p =>
      rcases hm : s.values[s.position]? with _ | w
      · simp only [visit_value, hm] at h
        exact Option.noConfusion h
      · simp only [visit_value, hm, Option.some.injEq] at h
        subst h
        exact Nat.le_succ _
    | singleQuotedString str =>
      simp only [visit_value, Option.some.injEq] at h
      subst h
      exact Nat.le_refl _
    | number d n =>
      simp only [visit_value, Option.some.injEq] at h
      subst h
      exact Nat.le_refl _
    | boolean b =>
      simp only [visit_value, Option.some.injEq] at h
      subst h
      exact Nat.le_refl _
    | null =>
      simp only [visit_value, Option.some.injEq] at h
      subst h
      exact Nat.le_refl _
  · intro name s out h
    rcases hm : s.values[s.position]? with _ | w
    · simp only [visit_value, hm] at h
      exact Option.noConfusion h
    · simp only [visit_value, hm, Option.some.injEq] at h
      subst h
      rfl

/-- One-placeholder statement used to witness C9. -/
def c9Stmt : Statement :=
  Statement.query (Query.mk (SetExpr.select (Select.mk []
    (some (Expr.value (Value.placeholder "$1"))) [])))

/-- The bound form of `c9Stmt` for the boolean value. -/
def c9Bound : Statement :=
  Statement.query (Query.mk (SetExpr.select (Select.mk []
    (some (Expr.value (Value.boolean true))) [])))

/-- Witness for C9: a full traversal moves the cursor from 0 to 1, and a
single placeholder visit advances it from 0 to exactly 1. -/
theorem binder_position_monotone_witness :
    ((StatementBinder.mk 0 [PlaceholderValue.Bool true]).position ≤
      ((c9Bound, StatementBinder.mk 1 [PlaceholderValue.Bool true]) :
        Statement × StatementBinder).2.position) ∧
    (((Value.boolean true, StatementBinder.mk 1 [PlaceholderValue.Bool true]) :
        Value × StatementBinder).2.position
      = (StatementBinder.mk 0 [PlaceholderValue.Bool true]).position + 1) :=
  ⟨binder_position_monotone.1 c9Stmt (StatementBinder.mk 0 [PlaceholderValue.Bool true])
      (c9Bound, StatementBinder.mk 1 [PlaceholderValue.Bool true]) (by decide) rfl,
    binder_position_monotone.2.2 "$1" (StatementBinder.mk 0 [PlaceholderValue.Bool true])
      (Value.boolean true, StatementBinder.mk 1 [PlaceholderValue.Bool true]) rfl⟩

/-- C10: bind() is deterministic: two binders constructed from equal
value lists, run on equal statement trees, produce equal results (the
same resulting tree and the same final cursor, or the same abort); the
outcome depends on nothing but the tree and the value list. -/
theorem binder_bind_deterministic (t1 t2 : Statement) (vs1 vs2 : List PlaceholderValue)
    (ht : t1 = t2) (hv : vs1 = vs2) :
    StatementBinder.bind (StatementBinder.new vs1) t1
      = StatementBinder.bind (StatementBinder.new vs2) t2 := by
  rw [ht, hv]

/-- Small statement used to witness C10. -/
def c10Stmt : Statement :=
  Statement.query (Query.mk (SetExpr.select (Select.mk []
    (some (Expr.value (Value.placeholder "$1"))) [])))

/-- Witness for C10 at a concrete tree and value list. -/
theorem binder_bind_deterministic_witness :
    StatementBinder.bind (StatementBinder.new [PlaceholderValue.UInt64 5]) c10Stmt
      = StatementBinder.bind (StatementBinder.new [PlaceholderValue.UInt64 5]) c10Stmt :=
  binder_bind_deterministic c10Stmt c10Stmt [PlaceholderValue.UInt64 5]
    [PlaceholderValue.UInt64 5] rfl rfl
